import Mathlib

/-!
# Cross-modal emotional-state fusion engine: shallow embedding

This file embeds the fusion core of the `ai-communication-companion`
repository in Lean 4 and settles the specification claims against it.

Embedded source files:
* `IntegratedEmotionAnalysis` (fusion engine): `analyzeIntegratedEmotions`,
  `calculateConfidence`, `detectEmotionalConflict`, `adjustWeightsForConflict`.
* `emotionAnalysis.ts`: the `updateFromRedux` field validator.
* `audioAnalysisService.ts`: the normalization/blending stage of
  `analyzeAudio` (baseline blend ratios and the stress rate limiter).

Modelling conventions:
* JavaScript numbers are modelled as exact rationals (`ℚ`).  `NaN` inputs,
  where a claim needs them, are modelled as `Option ℚ` with `none` for a
  non-numeric value; all values of type `ℚ` are finite by construction.
* `Math.round x` is `⌊x + 1/2⌋` (`jsRound`), which is JavaScript's
  round-half-up behaviour.
* `Number(v) || 50` on a finite number `v` is `if v = 0 then 50 else v`
  (`jsOr50`): in JavaScript `0` is falsy, so it is replaced alongside `NaN`.
* The JS object `{text?, audio?, video?}` of per-modality slots is a record
  of three `Option` fields; the active set is extracted in declaration
  order text, audio, video.  JavaScript enumerates keys in insertion order,
  but every claim here is invariant under the enumeration order (the fused
  sums, the conflict test and the confidence depend only on which
  modalities are present and their readings).
* `validateEmotions` in the source only checks `typeof === 'number'` on
  each field; with `ℚ`-valued fields this always succeeds, so the throwing
  branch of `analyzeIntegratedEmotions` is unreachable in this model and
  the function is total.
-/

/-- The three-metric affect reading exchanged between components. -/
structure EmotionalState where
  stress : ℚ
  clarity : ℚ
  engagement : ℚ
deriving DecidableEq, Repr

/-- The three input channels. -/
inductive Modality where
  | text
  | audio
  | video
deriving DecidableEq, Repr

/-- Per-modality relative weights (`modalityWeights` in the source). -/
structure ModalityWeights where
  text : ℚ
  audio : ℚ
  video : ℚ
deriving DecidableEq, Repr

/-- Look up the weight of one modality (`weights[modality]`). -/
def ModalityWeights.get (w : ModalityWeights) : Modality → ℚ
  | .text => w.text
  | .audio => w.audio
  | .video => w.video

/-- Add `d` to the weight of modality `m` (`weights[m] += d`). -/
def ModalityWeights.add (w : ModalityWeights) (m : Modality) (d : ℚ) : ModalityWeights :=
  match m with
  | .text => { w with text := w.text + d }
  | .audio => { w with audio := w.audio + d }
  | .video => { w with video := w.video + d }

/-- The process-wide default weights set at construction. -/
def defaultWeights : ModalityWeights := ⟨3/10, 35/100, 35/100⟩

/-- The per-modality slot table passed to `analyzeIntegratedEmotions`:
`{text?: EmotionalState; audio?: EmotionalState; video?: EmotionalState}`. -/
structure EmotionalStates where
  text : Option EmotionalState
  audio : Option EmotionalState
  video : Option EmotionalState
deriving DecidableEq, Repr

/-- Result type of a fusion (`CrossModalAnalysis` in the source). -/
structure CrossModalAnalysis where
  emotionalState : EmotionalState
  confidence : ℚ
  activeModalities : List Modality
deriving DecidableEq, Repr

/-- JavaScript `Math.round`: round half up. -/
def jsRound (q : ℚ) : ℤ := ⌊q + 1/2⌋

/-- `Number(v) || 50` for a finite number `v`: `0` is falsy in JavaScript,
so it is coalesced to `50` just like `NaN`. -/
def jsOr50 (q : ℚ) : ℚ := if q = 0 then 50 else q

attribute [irreducible] jsOr50

/-- Active (modality, reading) pairs of a slot table: the modalities whose
slot is present, paired with their readings
(`Object.entries(emotionalStates).filter(([_, s]) => s !== undefined)`). -/
def activePairs (s : EmotionalStates) : List (Modality × EmotionalState) :=
  (match s.text with | some e => [(Modality.text, e)] | none => []) ++
  (match s.audio with | some e => [(Modality.audio, e)] | none => []) ++
  (match s.video with | some e => [(Modality.video, e)] | none => [])

/-- The `reduce` accumulating a sum of weights over a modality list
(used both by `calculateConfidence` and for the fusion's total weight). -/
def sumWeights (u : Modality → ℚ) (ms : List Modality) : ℚ :=
  ms.foldl (fun sum m => sum + u m) 0

/-- `calculateConfidence`: `0` for an empty active set, otherwise
`max(0.3, (|A|/3 + Σ_{m∈A} w[m] / (w.text+w.audio+w.video)) / 2)`.
It reads the configured base weights, not the conflict-adjusted ones. -/
def calculateConfidence (w : ModalityWeights) (active : List Modality) : ℚ :=
  if active.length = 0 then 0
  else
    let baseConfidence : ℚ := (active.length : ℚ) / 3
    let weightedConfidence : ℚ :=
      sumWeights w.get active / (w.text + w.audio + w.video)
    max (3/10) ((baseConfidence + weightedConfidence) / 2)

/-- One pairwise comparison of the inner conflict loop: some metric differs
by strictly more than the 30-point threshold. -/
def conflictPair (a b : EmotionalState) : Bool :=
  |a.stress - b.stress| > 30 ∨ |a.clarity - b.clarity| > 30 ∨
    |a.engagement - b.engagement| > 30

/-- `detectEmotionalConflict`: the double loop over `i < j` returns `true`
iff some pair of readings conflicts; fewer than two readings never
conflict. -/
def detectEmotionalConflict : List EmotionalState → Bool
  | [] => false
  | e :: rest => rest.any (conflictPair e) || detectEmotionalConflict rest

/-- The fixed reliability ordering `['video', 'audio', 'text']`. -/
def reliabilityOrder : List Modality := [.video, .audio, .text]

/-- `adjustWeightsForConflict`: on conflict, boost the most reliable active
modality's weight by `0.2` and subtract `0.2 / (|A| - 1)` from each other
active modality's weight; otherwise return the base weights unchanged. -/
def adjustWeightsForConflict (w : ModalityWeights) (emotions : List EmotionalState)
    (modalities : List Modality) : ModalityWeights :=
  if detectEmotionalConflict emotions then
    match reliabilityOrder.filter (fun m => decide (m ∈ modalities)) with
    | [] => w
    | primary :: _ =>
      let boost : ℚ := 1/5
      let reduction : ℚ := boost / ((modalities.length : ℚ) - 1)
      modalities.foldl
        (fun acc m => if m = primary then acc.add m boost else acc.add m (-reduction)) w
  else w

/-- The weighted-sum `reduce` of `analyzeIntegratedEmotions`: accumulate
`(Number(field) || 50) * weight` per metric over the active pairs. -/
def weightedEmotionSum (u : Modality → ℚ) (pairs : List (Modality × EmotionalState)) :
    EmotionalState :=
  pairs.foldl
    (fun sum p =>
      { stress := sum.stress + jsOr50 p.2.stress * u p.1
        clarity := sum.clarity + jsOr50 p.2.clarity * u p.1
        engagement := sum.engagement + jsOr50 p.2.engagement * u p.1 })
    ⟨0, 0, 0⟩

/-- `analyzeIntegratedEmotions`: extract the active set, return the neutral
default on an empty set, otherwise rebalance weights for conflict, take the
rounded weighted average per metric (with a defensive floor of 1 on a
non-positive total weight), and score confidence from the base weights. -/
def analyzeIntegratedEmotions (w : ModalityWeights) (s : EmotionalStates) :
    CrossModalAnalysis :=
  let pairs := activePairs s
  let activeModalities := pairs.map Prod.fst
  let emotions := pairs.map Prod.snd
  if pairs.isEmpty then
    { emotionalState := ⟨50, 50, 50⟩, confidence := 0, activeModalities := [] }
  else
    let adjustedWeights := adjustWeightsForConflict w emotions activeModalities
    let weightedSum := weightedEmotionSum adjustedWeights.get pairs
    let totalWeight := sumWeights adjustedWeights.get activeModalities
    let safeTotalWeight := if totalWeight > 0 then totalWeight else 1
    { emotionalState :=
        ⟨(jsRound (weightedSum.stress / safeTotalWeight) : ℚ),
         (jsRound (weightedSum.clarity / safeTotalWeight) : ℚ),
         (jsRound (weightedSum.engagement / safeTotalWeight) : ℚ)⟩
      confidence := calculateConfidence w activeModalities
      activeModalities := activeModalities }

/-! ## Audio analysis (`audioAnalysisService.ts`): normalization and blending

`analyzeAudio` validates the model's three raw predictions (finite numbers;
modelled here as `ℚ`, which is finite by construction) and then normalizes
each: scale the sigmoid output by 100, blend with a fixed per-metric
baseline (`{stress: 45, clarity: 60, engagement: 58}`), apply the
stress-only rate limiter, and clamp into `[0, 100]` after rounding. -/

/-- The hard-coded `baselineValues` of `analyzeAudio`. -/
def audioBaselineValues : EmotionalState := ⟨45, 60, 58⟩

/-- `maxStressIncrease = 15`: the per-update ceiling on a stress rise. -/
def maxStressIncrease : ℚ := 15

/-- The adaptive stress blend ratio: `0.6` when the scaled value is above
the baseline (rising), `0.8` otherwise (falling) — "faster decrease,
slower increase". -/
def stressBlendRatio (percentage baseline : ℚ) : ℚ :=
  if percentage > baseline then 3/5 else 4/5

/-- The stress blend: `percentage * ratio + baseline * (1 - ratio)`. -/
def blendedStress (percentage baseline : ℚ) : ℚ :=
  percentage * stressBlendRatio percentage baseline +
    baseline * (1 - stressBlendRatio percentage baseline)

/-- Normalization of the raw stress prediction (`index === 0`): scale by
100, blend adaptively with the baseline, cap at
`previousStress + maxStressIncrease` (where `previousStress` is the
baseline stress), then round and clamp into `[0, 100]`. -/
def normalizeStressValue (v : ℚ) : ℤ :=
  let percentage := v * 100
  let blended := blendedStress percentage audioBaselineValues.stress
  if blended > audioBaselineValues.stress + maxStressIncrease then
    jsRound (audioBaselineValues.stress + maxStressIncrease)
  else
    max 0 (min 100 (jsRound blended))

/-- Normalization of the raw clarity prediction (`index === 1`): blend
ratio `0.75`. -/
def normalizeClarityValue (v : ℚ) : ℤ :=
  let percentage := v * 100
  let blended := percentage * (3/4) + audioBaselineValues.clarity * (1 - 3/4)
  max 0 (min 100 (jsRound blended))

/-- Normalization of the raw engagement prediction (`index === 2`): blend
ratio `0.7`. -/
def normalizeEngagementValue (v : ℚ) : ℤ :=
  let percentage := v * 100
  let blended := percentage * (7/10) + audioBaselineValues.engagement * (1 - 7/10)
  max 0 (min 100 (jsRound blended))

/-- The result `analyzeAudio` builds from three validated finite raw
predictions `(stress, clarity, engagement)`. -/
def analyzeAudio (values : ℚ × ℚ × ℚ) : EmotionalState :=
  ⟨(normalizeStressValue values.1 : ℚ),
   (normalizeClarityValue values.2.1 : ℚ),
   (normalizeEngagementValue values.2.2 : ℚ)⟩

/-! ## Redux-side reading validator (`emotionAnalysis.ts`, `updateFromRedux`)

A candidate field is modelled as `Option ℚ`: `none` stands for a `NaN` /
non-numeric / missing value (anything with `isNaN(x) = true` after JS
coercion), `some q` for a finite number.  (IEEE infinities are not
representable in `ℚ`; in JavaScript they satisfy `!isNaN` and are clamped
by the same `min/max` expression to `100` resp. `0`.) -/

/-- A raw candidate reading whose fields may be non-numeric. -/
structure RawEmotionalState where
  stress : Option ℚ
  clarity : Option ℚ
  engagement : Option ℚ
deriving DecidableEq, Repr

/-- One field of `updateFromRedux`'s validation:
`!isNaN(x) ? Math.min(100, Math.max(0, x)) : 50`. -/
def validateReduxField : Option ℚ → ℚ
  | none => 50
  | some q => min 100 (max 0 q)

/-- The `validState` computed by `updateFromRedux` before storing the
reading in the modality slot. -/
def updateFromRedux (raw : RawEmotionalState) : EmotionalState :=
  ⟨validateReduxField raw.stress, validateReduxField raw.clarity,
   validateReduxField raw.engagement⟩

/-! ## Derived notions used by the claims -/

/-- A reading all of whose fields lie in `[0, 100]` (finiteness is implied
by the `ℚ` model). -/
def validState (e : EmotionalState) : Prop :=
  0 ≤ e.stress ∧ e.stress ≤ 100 ∧ 0 ≤ e.clarity ∧ e.clarity ≤ 100 ∧
    0 ≤ e.engagement ∧ e.engagement ≤ 100

instance (e : EmotionalState) : Decidable (validState e) := by
  unfold validState; infer_instance

/-- `Number(field) || 50` applied to every field of a reading. -/
def sanitizeReading (e : EmotionalState) : EmotionalState :=
  ⟨jsOr50 e.stress, jsOr50 e.clarity, jsOr50 e.engagement⟩

/-- Modelled from the spec's confidence formula: the sum of the active
modalities' rebalanced (conflict-adjusted) weights, `W_A`.  The source's
`calculateConfidence` instead reads the configured base weights; the two
are compared in the claim C2 theorem. -/
def specActiveRebalancedWeight (w : ModalityWeights) (s : EmotionalStates) : ℚ :=
  let pairs := activePairs s
  ((pairs.map Prod.fst).map
    (adjustWeightsForConflict w (pairs.map Prod.snd) (pairs.map Prod.fst)).get).sum

/-! ## Helper lemmas -/

theorem sumWeights_eq_sum (u : Modality → ℚ) (ms : List Modality) :
    sumWeights u ms = (ms.map u).sum := by
  suffices h : ∀ init : ℚ, ms.foldl (fun sum m => sum + u m) init = init + (ms.map u).sum by
    simpa [sumWeights] using h 0
  induction ms with
  | nil => intro init; simp
  | cons m ms ih => intro init; simp [List.foldl, ih]; ring

theorem weightedEmotionSum_eq (u : Modality → ℚ) (pairs : List (Modality × EmotionalState)) :
    weightedEmotionSum u pairs =
      ⟨(pairs.map fun p => jsOr50 p.2.stress * u p.1).sum,
       (pairs.map fun p => jsOr50 p.2.clarity * u p.1).sum,
       (pairs.map fun p => jsOr50 p.2.engagement * u p.1).sum⟩ := by
  suffices h : ∀ init : EmotionalState,
      pairs.foldl
        (fun sum p =>
          ({ stress := sum.stress + jsOr50 p.2.stress * u p.1
             clarity := sum.clarity + jsOr50 p.2.clarity * u p.1
             engagement := sum.engagement + jsOr50 p.2.engagement * u p.1 } : EmotionalState))
        init =
        ⟨init.stress + (pairs.map fun p => jsOr50 p.2.stress * u p.1).sum,
         init.clarity + (pairs.map fun p => jsOr50 p.2.clarity * u p.1).sum,
         init.engagement + (pairs.map fun p => jsOr50 p.2.engagement * u p.1).sum⟩ by
    simpa [weightedEmotionSum] using h ⟨0, 0, 0⟩
  induction pairs with
  | nil => intro init; simp
  | cons p ps ih =>
    intro init
    simp [List.foldl, ih, EmotionalState.mk.injEq]
    refine ⟨by ring, by ring, by ring⟩

theorem detect_single (e : EmotionalState) : detectEmotionalConflict [e] = false := by
  simp [detectEmotionalConflict]

theorem adjust_no_conflict (w : ModalityWeights) (es : List EmotionalState)
    (ms : List Modality) (h : detectEmotionalConflict es = false) :
    adjustWeightsForConflict w es ms = w := by
  simp [adjustWeightsForConflict, h]

theorem adjust_conflict_ta (w : ModalityWeights) (e1 e2 : EmotionalState)
    (h : detectEmotionalConflict [e1, e2] = true) :
    adjustWeightsForConflict w [e1, e2] [.text, .audio] =
      ⟨w.text - 1/5, w.audio + 1/5, w.video⟩ := by
  have hf : reliabilityOrder.filter
      (fun m => decide (m ∈ ([Modality.text, Modality.audio] : List Modality))) =
      [Modality.audio, Modality.text] := rfl
  simp only [adjustWeightsForConflict, h, if_true, hf]
  simp [ModalityWeights.add, ModalityWeights.mk.injEq]
  norm_num [sub_eq_add_neg]

theorem adjust_conflict_tv (w : ModalityWeights) (e1 e2 : EmotionalState)
    (h : detectEmotionalConflict [e1, e2] = true) :
    adjustWeightsForConflict w [e1, e2] [.text, .video] =
      ⟨w.text - 1/5, w.audio, w.video + 1/5⟩ := by
  have hf : reliabilityOrder.filter
      (fun m => decide (m ∈ ([Modality.text, Modality.video] : List Modality))) =
      [Modality.video, Modality.text] := rfl
  simp only [adjustWeightsForConflict, h, if_true, hf]
  simp [ModalityWeights.add, ModalityWeights.mk.injEq]
  norm_num [sub_eq_add_neg]

theorem adjust_conflict_av (w : ModalityWeights) (e1 e2 : EmotionalState)
    (h : detectEmotionalConflict [e1, e2] = true) :
    adjustWeightsForConflict w [e1, e2] [.audio, .video] =
      ⟨w.text, w.audio - 1/5, w.video + 1/5⟩ := by
  have hf : reliabilityOrder.filter
      (fun m => decide (m ∈ ([Modality.audio, Modality.video] : List Modality))) =
      [Modality.video, Modality.audio] := rfl
  simp only [adjustWeightsForConflict, h, if_true, hf]
  simp [ModalityWeights.add, ModalityWeights.mk.injEq]
  norm_num [sub_eq_add_neg]

theorem adjust_conflict_tav (w : ModalityWeights) (e1 e2 e3 : EmotionalState)
    (h : detectEmotionalConflict [e1, e2, e3] = true) :
    adjustWeightsForConflict w [e1, e2, e3] [.text, .audio, .video] =
      ⟨w.text - 1/10, w.audio - 1/10, w.video + 1/5⟩ := by
  have hf : reliabilityOrder.filter
      (fun m => decide (m ∈ ([Modality.text, Modality.audio, Modality.video] : List Modality))) =
      [Modality.video, Modality.audio, Modality.text] := rfl
  simp only [adjustWeightsForConflict, h, if_true, hf]
  simp [ModalityWeights.add, ModalityWeights.mk.injEq]
  norm_num [sub_eq_add_neg]

theorem jsOr50_bounds (q : ℚ) (h0 : 0 ≤ q) (h1 : q ≤ 100) :
    0 ≤ jsOr50 q ∧ jsOr50 q ≤ 100 := by
  unfold jsOr50
  split_ifs
  · norm_num
  · exact ⟨h0, h1⟩

theorem jsRound_mem (q : ℚ) (h0 : 0 ≤ q) (h1 : q ≤ 100) :
    0 ≤ jsRound q ∧ jsRound q ≤ 100 := by
  unfold jsRound
  constructor
  · rw [Int.le_floor]; push_cast; linarith
  · have : ⌊q + 1/2⌋ < 101 := by rw [Int.floor_lt]; push_cast; linarith
    omega

theorem jsRound_div_mem (num den : ℚ) (hden : 0 < den) (h0 : 0 ≤ num)
    (h1 : num ≤ 100 * den) :
    0 ≤ ((jsRound (num / den) : ℤ) : ℚ) ∧ ((jsRound (num / den) : ℤ) : ℚ) ≤ 100 := by
  have hq0 : 0 ≤ num / den := div_nonneg h0 hden.le
  have hq1 : num / den ≤ 100 := by rw [div_le_iff₀ hden]; linarith
  have h := jsRound_mem (num / den) hq0 hq1
  exact ⟨by exact_mod_cast h.1, by exact_mod_cast h.2⟩

theorem weighted_sum_field_bounds (u : Modality → ℚ) (f : EmotionalState → ℚ)
    (pairs : List (Modality × EmotionalState))
    (hu : ∀ p ∈ pairs, 0 ≤ u p.1)
    (hf : ∀ p ∈ pairs, 0 ≤ f p.2 ∧ f p.2 ≤ 100) :
    0 ≤ (pairs.map fun p => jsOr50 (f p.2) * u p.1).sum ∧
      (pairs.map fun p => jsOr50 (f p.2) * u p.1).sum ≤
        100 * (pairs.map fun p => u p.1).sum := by
  induction pairs with
  | nil => simp
  | cons p ps ih =>
    have hup : 0 ≤ u p.1 := hu p (List.mem_cons_self p ps)
    have hfp := hf p (List.mem_cons_self p ps)
    have hj := jsOr50_bounds (f p.2) hfp.1 hfp.2
    have ih' := ih (fun q hq => hu q (List.mem_cons_of_mem p hq))
      (fun q hq => hf q (List.mem_cons_of_mem p hq))
    have ht0 : 0 ≤ jsOr50 (f p.2) * u p.1 := mul_nonneg hj.1 hup
    have ht1 : jsOr50 (f p.2) * u p.1 ≤ 100 * u p.1 :=
      mul_le_mul_of_nonneg_right hj.2 hup
    simp only [List.map_cons, List.sum_cons]
    constructor
    · linarith [ih'.1]
    · linarith [ih'.2]

theorem rebalanced_sum_eq_base_sum (w : ModalityWeights) (s : EmotionalStates) :
    specActiveRebalancedWeight w s = ((activePairs s).map fun p => w.get p.1).sum := by
  rcases s with ⟨t, a, v⟩
  rcases t with _ | et <;> rcases a with _ | ea <;> rcases v with _ | ev <;>
    simp only [specActiveRebalancedWeight, activePairs, List.map, List.append_nil,
      List.nil_append, List.cons_append, List.map_cons, List.map_nil]
  case mk.none.none.some => rw [adjust_no_conflict w _ _ (detect_single ev)]
  case mk.none.some.none => rw [adjust_no_conflict w _ _ (detect_single ea)]
  case mk.none.some.some =>
    by_cases hc : detectEmotionalConflict [ea, ev] = true
    · rw [adjust_conflict_av w ea ev hc]; simp [ModalityWeights.get]
    · rw [adjust_no_conflict w _ _ (Bool.not_eq_true _ ▸ hc)]
  case mk.some.none.none => rw [adjust_no_conflict w _ _ (detect_single et)]
  case mk.some.none.some =>
    by_cases hc : detectEmotionalConflict [et, ev] = true
    · rw [adjust_conflict_tv w et ev hc]; simp [ModalityWeights.get]
    · rw [adjust_no_conflict w _ _ (Bool.not_eq_true _ ▸ hc)]
  case mk.some.some.none =>
    by_cases hc : detectEmotionalConflict [et, ea] = true
    · rw [adjust_conflict_ta w et ea hc]; simp [ModalityWeights.get]
    · rw [adjust_no_conflict w _ _ (Bool.not_eq_true _ ▸ hc)]
  case mk.some.some.some =>
    by_cases hc : detectEmotionalConflict [et, ea, ev] = true
    · rw [adjust_conflict_tav w et ea ev hc]; simp [ModalityWeights.get]; ring
    · rw [adjust_no_conflict w _ _ (Bool.not_eq_true _ ▸ hc)]

theorem jsOr50_eq_self (q : ℚ) (h : q ≠ 0) : jsOr50 q = q := by
  rw [jsOr50, if_neg h]

theorem jsOr50_idem (q : ℚ) : jsOr50 (jsOr50 q) = jsOr50 q := by
  by_cases h : q = 0 <;> simp [jsOr50, h]

theorem jsRound_intCast (n : ℤ) : jsRound (n : ℚ) = n := by
  unfold jsRound
  rw [add_comm, Int.floor_add_int]
  norm_num

/-! ## Claims -/

/-- C9: fusing an all-absent slot table returns the neutral state
`{50,50,50}`, confidence `0` and an empty active-modality list (defined
idle state, no error). -/
theorem empty_active_set_neutral (w : ModalityWeights) :
    analyzeIntegratedEmotions w ⟨none, none, none⟩ = ⟨⟨50, 50, 50⟩, 0, []⟩ := rfl

/-- C6: a pair of active readings is flagged as conflicting iff some
metric's absolute difference strictly exceeds 30; a stress difference of
exactly 31 conflicts, exactly 30 does not. -/
theorem conflict_threshold_boundary :
    (∀ a b : EmotionalState,
      detectEmotionalConflict [a, b] = true ↔
        (|a.stress - b.stress| > 30 ∨ |a.clarity - b.clarity| > 30 ∨
          |a.engagement - b.engagement| > 30)) ∧
    detectEmotionalConflict [⟨50, 50, 50⟩, ⟨81, 50, 50⟩] = true ∧
    detectEmotionalConflict [⟨50, 50, 50⟩, ⟨80, 50, 50⟩] = false := by
  have hiff : ∀ a b : EmotionalState,
      detectEmotionalConflict [a, b] = true ↔
        (|a.stress - b.stress| > 30 ∨ |a.clarity - b.clarity| > 30 ∨
          |a.engagement - b.engagement| > 30) := by
    intro a b
    simp [detectEmotionalConflict, conflictPair]
  refine ⟨hiff, ?_, ?_⟩
  · rw [hiff]
    have : |(50 : ℚ) - 81| = 31 := by rw [abs_sub_comm]; norm_num
    rw [this]
    norm_num
  · rw [Bool.eq_false_iff]
    intro htrue
    rw [hiff] at htrue
    have h1 : |(50 : ℚ) - 80| = 30 := by rw [abs_sub_comm]; norm_num
    have h2 : |(50 : ℚ) - 50| = 0 := by norm_num
    rw [h1, h2] at htrue
    norm_num at htrue

/-- C3 (counterexample): the claim says an out-of-range field is replaced
by the fixed default 50, but `updateFromRedux` clamps it instead: a stress
of 150 is stored as 100, not 50. -/
theorem updateFromRedux_clamp_counterexample :
    (updateFromRedux ⟨some 150, some 50, some 50⟩).stress = 100 ∧
      (updateFromRedux ⟨some 150, some 50, some 50⟩).stress ≠ 50 := by
  have h : (updateFromRedux ⟨some 150, some 50, some 50⟩).stress = 100 := by
    show validateReduxField (some 150) = 100
    rw [validateReduxField]
    rw [max_eq_right (by norm_num : (0:ℚ) ≤ 150), min_eq_left (by norm_num : (100:ℚ) ≤ 150)]
  exact ⟨h, by rw [h]; norm_num⟩

/-- C3 (amended): `updateFromRedux` checks each field independently and
never raises; a `NaN`/non-numeric field becomes the default 50, but a
finite out-of-range field is clamped to the nearest bound (`0` or `100`),
not replaced by 50; in-range fields are kept unchanged. -/
theorem updateFromRedux_validation :
    (∀ raw : RawEmotionalState,
      updateFromRedux raw = ⟨validateReduxField raw.stress,
        validateReduxField raw.clarity, validateReduxField raw.engagement⟩) ∧
    validateReduxField none = 50 ∧
    (∀ q : ℚ, 0 ≤ q → q ≤ 100 → validateReduxField (some q) = q) ∧
    (∀ q : ℚ, 100 < q → validateReduxField (some q) = 100) ∧
    (∀ q : ℚ, q < 0 → validateReduxField (some q) = 0) := by
  refine ⟨fun raw => rfl, rfl, fun q h0 h1 => ?_, fun q h => ?_, fun q h => ?_⟩
  · rw [validateReduxField, max_eq_right h0, min_eq_right h1]
  · rw [validateReduxField, max_eq_right (by linarith), min_eq_left (by linarith)]
  · rw [validateReduxField, max_eq_left (by linarith)]
    norm_num

theorem updateFromRedux_validation_witness :
    validateReduxField (some 42) = 42 ∧ validateReduxField (some 150) = 100 ∧
      validateReduxField (some (-5)) = 0 :=
  ⟨updateFromRedux_validation.2.2.1 42 (by norm_num) (by norm_num),
   updateFromRedux_validation.2.2.2.1 150 (by norm_num),
   updateFromRedux_validation.2.2.2.2 (-5) (by norm_num)⟩

/-- C7: with exactly video and text active and their readings in conflict,
rebalancing strictly raises video's effective weight above its configured
base weight and strictly lowers text's below its base weight. -/
theorem conflict_rebalance_video_text (w : ModalityWeights) (et ev : EmotionalState)
    (h : detectEmotionalConflict [et, ev] = true) :
    w.video < (adjustWeightsForConflict w [et, ev] [.text, .video]).video ∧
      (adjustWeightsForConflict w [et, ev] [.text, .video]).text < w.text := by
  rw [adjust_conflict_tv w et ev h]
  constructor <;> simp

theorem conflict_rebalance_video_text_witness :
    defaultWeights.video <
      (adjustWeightsForConflict defaultWeights [⟨80, 40, 90⟩, ⟨20, 90, 30⟩]
        [.text, .video]).video ∧
    (adjustWeightsForConflict defaultWeights [⟨80, 40, 90⟩, ⟨20, 90, 30⟩]
        [.text, .video]).text < defaultWeights.text :=
  conflict_rebalance_video_text defaultWeights ⟨80, 40, 90⟩ ⟨20, 90, 30⟩ (by
    simp [detectEmotionalConflict, conflictPair]
    norm_num [abs_of_nonneg])

/-- C8: the stress baseline blend is asymmetric: the baseline's weight is
strictly larger when the normalized stress is above the baseline (rising,
ratio 0.6 so baseline weight 0.4) than when it is at or below it (falling,
ratio 0.8 so baseline weight 0.2); hence, at equal distance from the
baseline, a rising input moves the blend strictly less than a falling
one. -/
theorem stress_blend_asymmetry :
    (∀ p q : ℚ, audioBaselineValues.stress < p → q ≤ audioBaselineValues.stress →
      1 - stressBlendRatio q audioBaselineValues.stress <
        1 - stressBlendRatio p audioBaselineValues.stress) ∧
    (∀ d : ℚ, 0 < d →
      |blendedStress (audioBaselineValues.stress + d) audioBaselineValues.stress -
          audioBaselineValues.stress| <
        |blendedStress (audioBaselineValues.stress - d) audioBaselineValues.stress -
          audioBaselineValues.stress|) := by
  have hb : audioBaselineValues.stress = 45 := rfl
  constructor
  · intro p q hp hq
    rw [hb] at hp hq ⊢
    rw [stressBlendRatio, stressBlendRatio, if_pos hp, if_neg (by linarith)]
    norm_num
  · intro d hd
    rw [hb]
    have h1 : blendedStress (45 + d) 45 = 45 + (3/5) * d := by
      rw [blendedStress, stressBlendRatio, if_pos (by linarith : (45 : ℚ) + d > 45)]
      ring
    have h2 : blendedStress (45 - d) 45 = 45 - (4/5) * d := by
      rw [blendedStress, stressBlendRatio, if_neg (by linarith : ¬ (45 : ℚ) - d > 45)]
      ring
    rw [h1, h2]
    have e1 : (45 : ℚ) + 3/5 * d - 45 = 3/5 * d := by ring
    have e2 : (45 : ℚ) - 4/5 * d - 45 = -(4/5 * d) := by ring
    rw [e1, e2, abs_of_nonneg (by linarith), abs_neg, abs_of_nonneg (by linarith)]
    linarith

theorem stress_blend_asymmetry_witness :
    (1 - stressBlendRatio 45 audioBaselineValues.stress <
      1 - stressBlendRatio 46 audioBaselineValues.stress) ∧
    |blendedStress (audioBaselineValues.stress + 1) audioBaselineValues.stress -
        audioBaselineValues.stress| <
      |blendedStress (audioBaselineValues.stress - 1) audioBaselineValues.stress -
        audioBaselineValues.stress| :=
  ⟨stress_blend_asymmetry.1 46 45 (by norm_num [audioBaselineValues])
      (by norm_num [audioBaselineValues]),
   stress_blend_asymmetry.2 1 (by norm_num)⟩

/-- C5: for every finite raw audio prediction, however extreme, the
blended stress reported by `analyzeAudio` never exceeds the baseline
stress plus `maxStressIncrease = 15`; since the baseline stress is 45, the
reported stress is at most 60 and in particular never exceeds 70. -/
theorem stress_rate_limiter (values : ℚ × ℚ × ℚ) :
    (analyzeAudio values).stress ≤ audioBaselineValues.stress + maxStressIncrease ∧
      (analyzeAudio values).stress ≤ 70 := by
  have hb : audioBaselineValues.stress = 45 := rfl
  have hm : maxStressIncrease = 15 := rfl
  have h60 : normalizeStressValue values.1 ≤ 60 := by
    rw [normalizeStressValue]
    split_ifs with h
    · rw [hb, hm, jsRound]
      norm_num
    · rw [hb, hm] at h
      push_neg at h
      have hj : jsRound (blendedStress (values.1 * 100) audioBaselineValues.stress) ≤ 60 := by
        rw [jsRound]
        calc ⌊blendedStress (values.1 * 100) audioBaselineValues.stress + 1/2⌋
            ≤ ⌊(121/2 : ℚ)⌋ := Int.floor_le_floor (by rw [hb]; linarith)
          _ = 60 := by norm_num
      exact max_le (by norm_num) (le_trans (min_le_right _ _) hj)
  have hcast : (analyzeAudio values).stress = ((normalizeStressValue values.1 : ℤ) : ℚ) := rfl
  have hq : ((normalizeStressValue values.1 : ℤ) : ℚ) ≤ 60 := by exact_mod_cast h60
  constructor
  · rw [hcast, hb, hm]; linarith
  · rw [hcast]; linarith

/-- C10: the falsy coalescing `Number(value) || 50` maps a legitimate 0 to
50, so the weighted aggregation is blind to the difference between a 0
field and a 50 field: pre-replacing every 0 field by 50 leaves the
aggregated sums unchanged, and a single active modality reporting stress 0
fuses to stress 50, not 0. -/
theorem zero_field_coalesced_to_50 :
    jsOr50 0 = 50 ∧
    (∀ (u : Modality → ℚ) (pairs : List (Modality × EmotionalState)),
      weightedEmotionSum u (pairs.map fun p => (p.1, sanitizeReading p.2)) =
        weightedEmotionSum u pairs) ∧
    (analyzeIntegratedEmotions defaultWeights
        ⟨some ⟨0, 80, 80⟩, none, none⟩).emotionalState.stress = 50 := by
  refine ⟨by norm_num [jsOr50], fun u pairs => ?_, ?_⟩
  · rw [weightedEmotionSum_eq, weightedEmotionSum_eq]
    simp [List.map_map, Function.comp_def, sanitizeReading, jsOr50_idem]
  · simp [analyzeIntegratedEmotions, activePairs, adjustWeightsForConflict,
      detectEmotionalConflict, conflictPair, reliabilityOrder, weightedEmotionSum,
      sumWeights, ModalityWeights.get, ModalityWeights.add, jsOr50, jsRound,
      calculateConfidence, defaultWeights]
    norm_num

/-- C2: for a non-empty active set, the returned confidence equals
`max(0.3, (|A|/3 + W_A / W_all) / 2)` where `W_A` is the sum of the active
modalities' rebalanced (conflict-adjusted) weights and `W_all` the sum of
the three configured weights — the source reads the base weights here, but
rebalancing preserves the active-set weight sum, so the spec's reading
with rebalanced weights is equal; in particular any non-empty active set
(so also a single active modality) yields confidence at least 0.3.  (The
positivity hypothesis on `W_all` restricts to the modelled domain: in
JavaScript a zero `W_all` would produce `NaN`, which `ℚ` cannot
represent.) -/
theorem confidence_formula (w : ModalityWeights) (s : EmotionalStates)
    (_hW : 0 < w.text + w.audio + w.video) (hne : activePairs s ≠ []) :
    (analyzeIntegratedEmotions w s).confidence =
      max (3/10) ((((activePairs s).length : ℚ) / 3 +
        specActiveRebalancedWeight w s / (w.text + w.audio + w.video)) / 2) ∧
    3/10 ≤ (analyzeIntegratedEmotions w s).confidence := by
  have hempty : (activePairs s).isEmpty = false := by
    rw [List.isEmpty_eq_false]
    exact hne
  have hconf : (analyzeIntegratedEmotions w s).confidence =
      calculateConfidence w ((activePairs s).map Prod.fst) := by
    rw [analyzeIntegratedEmotions]
    simp only [hempty, Bool.false_eq_true, if_false]
  have hlen : ((activePairs s).map Prod.fst).length ≠ 0 := by
    rw [List.length_map]
    intro h
    exact hne (List.length_eq_zero.mp h)
  have hsum : sumWeights w.get ((activePairs s).map Prod.fst) =
      specActiveRebalancedWeight w s := by
    rw [sumWeights_eq_sum, List.map_map, rebalanced_sum_eq_base_sum]
    rfl
  have hmain : (analyzeIntegratedEmotions w s).confidence =
      max (3/10) ((((activePairs s).length : ℚ) / 3 +
        specActiveRebalancedWeight w s / (w.text + w.audio + w.video)) / 2) := by
    rw [hconf, calculateConfidence, if_neg hlen]
    rw [hsum, List.length_map]
  exact ⟨hmain, by rw [hmain]; exact le_max_left _ _⟩

theorem confidence_formula_witness :
    (0 : ℚ) < defaultWeights.text + defaultWeights.audio + defaultWeights.video ∧
      activePairs ⟨some ⟨50, 50, 50⟩, none, none⟩ ≠ [] ∧
      3/10 ≤ (analyzeIntegratedEmotions defaultWeights
        ⟨some ⟨50, 50, 50⟩, none, none⟩).confidence :=
  ⟨by norm_num [defaultWeights], by simp [activePairs],
   (confidence_formula defaultWeights ⟨some ⟨50, 50, 50⟩, none, none⟩
      (by norm_num [defaultWeights]) (by simp [activePairs])).2⟩


/-- C4 (amended): if all three modalities hold the same reading `X` whose
fields are integers in `[1, 100]` (nonzero, so the falsy coalescing
`Number(v) || 50` keeps them) and the configured weights have positive
sum, fusion returns `X` exactly and the confidence is exactly 1.0 (the
coverage/weight formula at full coverage). -/
theorem equal_readings_fixed_point (w : ModalityWeights) (a b c : ℤ)
    (ha1 : 1 ≤ a) (ha2 : a ≤ 100) (hb1 : 1 ≤ b) (hb2 : b ≤ 100)
    (hc1 : 1 ≤ c) (hc2 : c ≤ 100)
    (hW : 0 < w.text + w.audio + w.video) :
    analyzeIntegratedEmotions w
        ⟨some ⟨(a : ℚ), (b : ℚ), (c : ℚ)⟩, some ⟨(a : ℚ), (b : ℚ), (c : ℚ)⟩,
         some ⟨(a : ℚ), (b : ℚ), (c : ℚ)⟩⟩ =
      ⟨⟨(a : ℚ), (b : ℚ), (c : ℚ)⟩, 1, [.text, .audio, .video]⟩ := by
  have ha0 : ((a : ℚ)) ≠ 0 := by
    have : (0 : ℚ) < (a : ℚ) := by exact_mod_cast (by omega : (0:ℤ) < a)
    linarith
  have hb0 : ((b : ℚ)) ≠ 0 := by
    have : (0 : ℚ) < (b : ℚ) := by exact_mod_cast (by omega : (0:ℤ) < b)
    linarith
  have hc0 : ((c : ℚ)) ≠ 0 := by
    have : (0 : ℚ) < (c : ℚ) := by exact_mod_cast (by omega : (0:ℤ) < c)
    linarith
  have hnc : detectEmotionalConflict
      [⟨(a : ℚ), (b : ℚ), (c : ℚ)⟩, ⟨(a : ℚ), (b : ℚ), (c : ℚ)⟩,
       ⟨(a : ℚ), (b : ℚ), (c : ℚ)⟩] = false := by
    simp [detectEmotionalConflict, conflictPair]
  rw [analyzeIntegratedEmotions]
  simp only [activePairs, List.cons_append, List.nil_append, List.map_cons, List.map_nil,
    List.isEmpty_cons, Bool.false_eq_true, if_false]
  rw [adjust_no_conflict w _ _ hnc]
  rw [weightedEmotionSum_eq]
  rw [sumWeights_eq_sum]
  simp only [List.map_cons, List.map_nil, List.sum_cons, List.sum_nil, ModalityWeights.get]
  rw [jsOr50_eq_self _ ha0, jsOr50_eq_self _ hb0, jsOr50_eq_self _ hc0]
  have hWp : (0:ℚ) < w.text + (w.audio + (w.video + 0)) := by linarith
  rw [if_pos hWp]
  have hWne : w.text + (w.audio + (w.video + 0)) ≠ 0 := ne_of_gt hWp
  have key : ∀ x : ℤ,
      ((x : ℚ) * w.text + ((x : ℚ) * w.audio + ((x : ℚ) * w.video + 0))) /
        (w.text + (w.audio + (w.video + 0))) = (x : ℚ) := by
    intro x
    rw [show (x : ℚ) * w.text + ((x : ℚ) * w.audio + ((x : ℚ) * w.video + 0)) =
        (x : ℚ) * (w.text + (w.audio + (w.video + 0))) by ring]
    rw [mul_div_assoc, div_self hWne, mul_one]
  rw [key a, key b, key c, jsRound_intCast, jsRound_intCast, jsRound_intCast]
  have hconf : calculateConfidence w [.text, .audio, .video] = 1 := by
    rw [calculateConfidence]
    rw [if_neg (by norm_num)]
    rw [sumWeights_eq_sum]
    simp only [List.map_cons, List.map_nil, List.sum_cons, List.sum_nil, ModalityWeights.get,
      List.length_cons, List.length_nil]
    rw [show w.text + (w.audio + (w.video + 0)) = w.text + w.audio + w.video by ring]
    rw [div_self (ne_of_gt hW)]
    norm_num
  rw [hconf]

theorem equal_readings_fixed_point_witness :
    analyzeIntegratedEmotions defaultWeights
        ⟨some ⟨((60 : ℤ) : ℚ), ((70 : ℤ) : ℚ), ((80 : ℤ) : ℚ)⟩,
         some ⟨((60 : ℤ) : ℚ), ((70 : ℤ) : ℚ), ((80 : ℤ) : ℚ)⟩,
         some ⟨((60 : ℤ) : ℚ), ((70 : ℤ) : ℚ), ((80 : ℤ) : ℚ)⟩⟩ =
      ⟨⟨((60 : ℤ) : ℚ), ((70 : ℤ) : ℚ), ((80 : ℤ) : ℚ)⟩, 1, [.text, .audio, .video]⟩ :=
  equal_readings_fixed_point defaultWeights 60 70 80 (by norm_num) (by norm_num)
    (by norm_num) (by norm_num) (by norm_num) (by norm_num) (by norm_num [defaultWeights])

/-- C4 (counterexample): the claim as stated fails for readings with an
integer field 0: with all three modalities equal to `{0, 50, 50}` (fields
in `[0, 100]`, pairwise differences 0, no conflict), fusion returns stress
50, not the 0 the claim requires. -/
theorem equal_readings_zero_field_counterexample :
    detectEmotionalConflict [⟨0, 50, 50⟩, ⟨0, 50, 50⟩, ⟨0, 50, 50⟩] = false ∧
    (analyzeIntegratedEmotions defaultWeights
        ⟨some ⟨0, 50, 50⟩, some ⟨0, 50, 50⟩, some ⟨0, 50, 50⟩⟩).emotionalState.stress = 50 ∧
    (analyzeIntegratedEmotions defaultWeights
        ⟨some ⟨0, 50, 50⟩, some ⟨0, 50, 50⟩, some ⟨0, 50, 50⟩⟩).emotionalState ≠
      ⟨0, 50, 50⟩ := by
  have hstress : (analyzeIntegratedEmotions defaultWeights
      ⟨some ⟨0, 50, 50⟩, some ⟨0, 50, 50⟩, some ⟨0, 50, 50⟩⟩).emotionalState.stress = 50 := by
    simp [analyzeIntegratedEmotions, activePairs, adjustWeightsForConflict,
      detectEmotionalConflict, conflictPair, reliabilityOrder, weightedEmotionSum,
      sumWeights, ModalityWeights.get, ModalityWeights.add, jsOr50, jsRound,
      calculateConfidence, defaultWeights]
    norm_num
  refine ⟨by simp [detectEmotionalConflict, conflictPair], hstress, fun h => ?_⟩
  rw [h] at hstress
  norm_num at hstress

/-- C1 (counterexample): with non-negative configured weights
`{text: 0.05, audio: 0.35, video: 0.35}` and valid in-range readings
(text `{1,50,50}`, video `{100,50,50}`), the conflict rebalancing drives
text's effective weight negative (`0.05 - 0.2`), and the fused stress is
137, outside `[0, 100]`. -/
theorem fusion_range_counterexample :
    validState ⟨1, 50, 50⟩ ∧ validState ⟨100, 50, 50⟩ ∧
    (0 : ℚ) ≤ 1/20 ∧ (0 : ℚ) ≤ 7/20 ∧
    100 < (analyzeIntegratedEmotions ⟨1/20, 7/20, 7/20⟩
      ⟨some ⟨1, 50, 50⟩, none, some ⟨100, 50, 50⟩⟩).emotionalState.stress := by
  have h : (analyzeIntegratedEmotions ⟨1/20, 7/20, 7/20⟩
      ⟨some ⟨1, 50, 50⟩, none, some ⟨100, 50, 50⟩⟩).emotionalState.stress = 137 := by
    simp [analyzeIntegratedEmotions, activePairs, adjustWeightsForConflict,
      detectEmotionalConflict, conflictPair, reliabilityOrder, weightedEmotionSum,
      sumWeights, ModalityWeights.get, ModalityWeights.add, jsOr50, jsRound,
      calculateConfidence]
    norm_num
  refine ⟨by norm_num [validState], by norm_num [validState], by norm_num, by norm_num, ?_⟩
  rw [h]
  norm_num

theorem adjusted_weights_nonneg (w : ModalityWeights) (s : EmotionalStates)
    (hwt : 1/5 ≤ w.text) (hwa : 1/5 ≤ w.audio) (hwv : 1/5 ≤ w.video) :
    ∀ p ∈ activePairs s,
      0 ≤ (adjustWeightsForConflict w ((activePairs s).map Prod.snd)
        ((activePairs s).map Prod.fst)).get p.1 := by
  rcases s with ⟨t, a, v⟩
  rcases t with _ | et <;> rcases a with _ | ea <;> rcases v with _ | ev <;>
    simp only [activePairs, List.cons_append, List.nil_append, List.append_nil,
      List.map_cons, List.map_nil]
  case mk.none.none.none => intro p hp; simp at hp
  case mk.none.none.some =>
    intro p hp
    rw [adjust_no_conflict w _ _ (detect_single ev)]
    fin_cases hp <;> simp [ModalityWeights.get] <;> linarith
  case mk.none.some.none =>
    intro p hp
    rw [adjust_no_conflict w _ _ (detect_single ea)]
    fin_cases hp <;> simp [ModalityWeights.get] <;> linarith
  case mk.none.some.some =>
    intro p hp
    by_cases hc : detectEmotionalConflict [ea, ev] = true
    · rw [adjust_conflict_av w ea ev hc]
      fin_cases hp <;> simp [ModalityWeights.get] <;> linarith
    · rw [adjust_no_conflict w _ _ (Bool.not_eq_true _ ▸ hc)]
      fin_cases hp <;> simp [ModalityWeights.get] <;> linarith
  case mk.some.none.none =>
    intro p hp
    rw [adjust_no_conflict w _ _ (detect_single et)]
    fin_cases hp <;> simp [ModalityWeights.get] <;> linarith
  case mk.some.none.some =>
    intro p hp
    by_cases hc : detectEmotionalConflict [et, ev] = true
    · rw [adjust_conflict_tv w et ev hc]
      fin_cases hp <;> simp [ModalityWeights.get] <;> linarith
    · rw [adjust_no_conflict w _ _ (Bool.not_eq_true _ ▸ hc)]
      fin_cases hp <;> simp [ModalityWeights.get] <;> linarith
  case mk.some.some.none =>
    intro p hp
    by_cases hc : detectEmotionalConflict [et, ea] = true
    · rw [adjust_conflict_ta w et ea hc]
      fin_cases hp <;> simp [ModalityWeights.get] <;> linarith
    · rw [adjust_no_conflict w _ _ (Bool.not_eq_true _ ▸ hc)]
      fin_cases hp <;> simp [ModalityWeights.get] <;> linarith
  case mk.some.some.some =>
    intro p hp
    by_cases hc : detectEmotionalConflict [et, ea, ev] = true
    · rw [adjust_conflict_tav w et ea ev hc]
      fin_cases hp <;> simp [ModalityWeights.get] <;> linarith
    · rw [adjust_no_conflict w _ _ (Bool.not_eq_true _ ▸ hc)]
      fin_cases hp <;> simp [ModalityWeights.get] <;> linarith

theorem fusion_total_weight_pos (w : ModalityWeights) (s : EmotionalStates)
    (hwt : 1/5 ≤ w.text) (hwa : 1/5 ≤ w.audio) (hwv : 1/5 ≤ w.video)
    (hne : activePairs s ≠ []) :
    0 < sumWeights (adjustWeightsForConflict w ((activePairs s).map Prod.snd)
      ((activePairs s).map Prod.fst)).get ((activePairs s).map Prod.fst) := by
  have hs : sumWeights (adjustWeightsForConflict w ((activePairs s).map Prod.snd)
      ((activePairs s).map Prod.fst)).get ((activePairs s).map Prod.fst) =
      specActiveRebalancedWeight w s := by
    rw [sumWeights_eq_sum, specActiveRebalancedWeight]
  rw [hs, rebalanced_sum_eq_base_sum]
  apply List.sum_pos
  · intro x hx
    obtain ⟨p, _, rfl⟩ := List.mem_map.mp hx
    have hall : ∀ m : Modality, 0 < w.get m := by
      intro m; cases m <;> simp [ModalityWeights.get] <;> linarith
    exact hall p.1
  · intro h
    exact hne (List.map_eq_nil_iff.mp h)

theorem fusion_state_fields_core (u : Modality → ℚ)
    (pairs : List (Modality × EmotionalState))
    (hu : ∀ p ∈ pairs, 0 ≤ u p.1) (hv : ∀ p ∈ pairs, validState p.2)
    (hpos : 0 < sumWeights u (pairs.map Prod.fst)) :
    validState
      ⟨(jsRound ((weightedEmotionSum u pairs).stress /
          sumWeights u (pairs.map Prod.fst)) : ℚ),
       (jsRound ((weightedEmotionSum u pairs).clarity /
          sumWeights u (pairs.map Prod.fst)) : ℚ),
       (jsRound ((weightedEmotionSum u pairs).engagement /
          sumWeights u (pairs.map Prod.fst)) : ℚ)⟩ := by
  have hT : sumWeights u (pairs.map Prod.fst) = (pairs.map fun p => u p.1).sum := by
    rw [sumWeights_eq_sum, List.map_map]
    rfl
  have hbs := weighted_sum_field_bounds u (fun e => e.stress) pairs hu
    (fun p hp => ⟨(hv p hp).1, (hv p hp).2.1⟩)
  have hbc := weighted_sum_field_bounds u (fun e => e.clarity) pairs hu
    (fun p hp => ⟨(hv p hp).2.2.1, (hv p hp).2.2.2.1⟩)
  have hbe := weighted_sum_field_bounds u (fun e => e.engagement) pairs hu
    (fun p hp => ⟨(hv p hp).2.2.2.2.1, (hv p hp).2.2.2.2.2⟩)
  have h0s : 0 ≤ (pairs.map fun p => jsOr50 p.2.stress * u p.1).sum := hbs.1
  have h1s : (pairs.map fun p => jsOr50 p.2.stress * u p.1).sum ≤
      100 * sumWeights u (pairs.map Prod.fst) := by rw [hT]; exact hbs.2
  have h0c : 0 ≤ (pairs.map fun p => jsOr50 p.2.clarity * u p.1).sum := hbc.1
  have h1c : (pairs.map fun p => jsOr50 p.2.clarity * u p.1).sum ≤
      100 * sumWeights u (pairs.map Prod.fst) := by rw [hT]; exact hbc.2
  have h0e : 0 ≤ (pairs.map fun p => jsOr50 p.2.engagement * u p.1).sum := hbe.1
  have h1e : (pairs.map fun p => jsOr50 p.2.engagement * u p.1).sum ≤
      100 * sumWeights u (pairs.map Prod.fst) := by rw [hT]; exact hbe.2
  rw [weightedEmotionSum_eq]
  have hs := jsRound_div_mem _ _ hpos h0s h1s
  have hc := jsRound_div_mem _ _ hpos h0c h1c
  have he := jsRound_div_mem _ _ hpos h0e h1e
  exact ⟨hs.1, hs.2, hc.1, hc.2, he.1, he.2⟩

theorem fusion_state_eq (w : ModalityWeights) (s : EmotionalStates)
    (hne : activePairs s ≠ [])
    (hpos : 0 < sumWeights (adjustWeightsForConflict w ((activePairs s).map Prod.snd)
      ((activePairs s).map Prod.fst)).get ((activePairs s).map Prod.fst)) :
    (analyzeIntegratedEmotions w s).emotionalState =
      ⟨(jsRound ((weightedEmotionSum (adjustWeightsForConflict w
          ((activePairs s).map Prod.snd) ((activePairs s).map Prod.fst)).get
          (activePairs s)).stress /
          sumWeights (adjustWeightsForConflict w ((activePairs s).map Prod.snd)
            ((activePairs s).map Prod.fst)).get ((activePairs s).map Prod.fst)) : ℚ),
       (jsRound ((weightedEmotionSum (adjustWeightsForConflict w
          ((activePairs s).map Prod.snd) ((activePairs s).map Prod.fst)).get
          (activePairs s)).clarity /
          sumWeights (adjustWeightsForConflict w ((activePairs s).map Prod.snd)
            ((activePairs s).map Prod.fst)).get ((activePairs s).map Prod.fst)) : ℚ),
       (jsRound ((weightedEmotionSum (adjustWeightsForConflict w
          ((activePairs s).map Prod.snd) ((activePairs s).map Prod.fst)).get
          (activePairs s)).engagement /
          sumWeights (adjustWeightsForConflict w ((activePairs s).map Prod.snd)
            ((activePairs s).map Prod.fst)).get ((activePairs s).map Prod.fst)) : ℚ)⟩ := by
  have hempty : (activePairs s).isEmpty = false := by
    rw [List.isEmpty_eq_false]
    exact hne
  rw [analyzeIntegratedEmotions]
  simp only [hempty, Bool.false_eq_true, if_false]
  rw [if_pos hpos]

/-- C1 (amended): for every slots snapshot whose present readings have all
three fields within `[0, 100]`, and for every configured `ModalityWeights`
with each weight at least `0.2` (the conflict boost, so rebalancing cannot
drive an active weight negative — non-negativity alone is not enough, see
the counterexample), every field of the fused `EmotionalState` is finite
and within `[0, 100]`. -/
theorem fusion_fields_in_range (w : ModalityWeights) (s : EmotionalStates)
    (hw : 1/5 ≤ w.text ∧ 1/5 ≤ w.audio ∧ 1/5 ≤ w.video)
    (hv : ∀ p ∈ activePairs s, validState p.2) :
    validState (analyzeIntegratedEmotions w s).emotionalState := by
  obtain ⟨hwt, hwa, hwv⟩ := hw
  by_cases hne : activePairs s = []
  · have hempty : (activePairs s).isEmpty = true := by
      rw [List.isEmpty_eq_true]
      exact hne
    have : analyzeIntegratedEmotions w s = ⟨⟨50, 50, 50⟩, 0, []⟩ := by
      rw [analyzeIntegratedEmotions]
      simp only [hempty, if_true]
    rw [this]
    norm_num [validState]
  · have hpos := fusion_total_weight_pos w s hwt hwa hwv hne
    rw [fusion_state_eq w s hne hpos]
    exact fusion_state_fields_core _ _ (adjusted_weights_nonneg w s hwt hwa hwv) hv hpos

theorem fusion_fields_in_range_witness :
    ((1 : ℚ)/5 ≤ defaultWeights.text ∧ 1/5 ≤ defaultWeights.audio ∧
      1/5 ≤ defaultWeights.video) ∧
    validState (analyzeIntegratedEmotions defaultWeights
      ⟨some ⟨80, 40, 90⟩, none, some ⟨20, 90, 30⟩⟩).emotionalState :=
  ⟨by norm_num [defaultWeights],
   fusion_fields_in_range defaultWeights ⟨some ⟨80, 40, 90⟩, none, some ⟨20, 90, 30⟩⟩
     (by norm_num [defaultWeights])
     (by intro p hp; fin_cases hp <;> norm_num [validState])⟩
